import Mathlib

/-!
Verification of the ticketless entry system backend (src/gas/Code.gs).

The spreadsheet store is modelled as a list of rows; every cell is a string,
with the empty string standing for an empty cell (JavaScript falsiness of the
cell value).  Timestamps are passed in explicitly as strings (the code reads
the clock once per request and formats it with a fixed pattern), so each
stateful entry point takes a `now` argument and returns the result object
together with the updated store.
-/

namespace Ticketless

/-- JavaScript String.prototype.trim, modelled on the character list:
drop leading whitespace, then drop trailing whitespace. -/
def trimLeftChars (l : List Char) : List Char := l.dropWhile Char.isWhitespace

/-- Drop the trailing run of whitespace characters. -/
def trimRightChars : List Char → List Char
  | [] => []
  | c :: rest =>
    let r := trimRightChars rest
    if r = [] && c.isWhitespace then [] else c :: r

/-- Model of the JavaScript trim applied by the sync code via String(x).trim(). -/
def jsTrim (s : String) : String := String.mk (trimRightChars (trimLeftChars s.data))

/-- TICKET_CONFIG from Code.gs: TicketType to StartTime, in declaration order
(new ticket types first, then the legacy and price aliases). -/
def TICKET_CONFIG : List (String × String) :=
  [("VIP Pass", "18:30-19:00"),
   ("PriorityPass", "18:30-19:00"),
   ("StandardPass", "11:00-12:00"),
   ("GuestPass", "11:00-12:00"),
   ("FreeGuest", "18:30-19:00"),
   ("VIP", "18:30-19:00"),
   ("General", "11:00-12:00"),
   ("15400", "18:30-19:00"),
   ("13200", "11:00-12:00"),
   ("1100", "11:00-12:00"),
   ("Invitation", "18:30-19:00")]

/-- Property lookup TICKET_CONFIG[t]; none when the key is absent. -/
def ticketConfigLookup (t : String) : Option String :=
  (TICKET_CONFIG.find? (fun p => p.1 == t)).map (fun p => p.2)

/-- The default start time used by syncECData when the looked-up type is absent. -/
def defaultStartTime : String := "11:00-12:00"

/-- The if-chain in syncECData mapping legacy and price inputs to new
TicketType names; anything else passes through unchanged. -/
def normalizeTicketType (t : String) : String :=
  if t = "15400" ∨ t = "15,400" then "PriorityPass"
  else if t = "13200" ∨ t = "13,200" then "StandardPass"
  else if t = "1100" ∨ t = "1,100" ∨ t = "Guest" then "GuestPass"
  else if t = "Invitation" ∨ t = "無料招待者" then "FreeGuest"
  else if t = "役員招待枠" then "VIP Pass"
  else t

/-- Bool form of the if-chain guard: t is one of the rewritten legacy inputs. -/
def isLegacyAliasInput (t : String) : Bool :=
  t == "15400" || t == "15,400" || t == "13200" || t == "13,200" ||
  t == "1100" || t == "1,100" || t == "Guest" ||
  t == "Invitation" || t == "無料招待者" || t == "役員招待枠"

/-- TICKET_CONFIG[ticketType] with the default window, as computed in syncECData. -/
def startTimeFor (t : String) : String := (ticketConfigLookup t).getD defaultStartTime

/-- One Attendees row.  Column order in the sheet:
ID, Name, Email, Token, CheckInTime, EmailSent, TicketType, StartTime,
ReEntryHistory, Inviter, Note.  An empty string is an empty cell. -/
structure Row where
  id : String
  name : String
  email : String
  token : String
  checkInTime : String
  emailSent : String
  ticketType : String
  startTime : String
  reEntryHistory : String
  inviter : String
  note : String
deriving DecidableEq

/-- The status strings used by the check-in result objects. -/
inductive Status where
  | SUCCESS
  | WARNING
  | ERROR
deriving DecidableEq

/-- Result object of checkInUser / manualCheckIn.  Fields that a given branch
does not set are `none` (in particular `status`, which the two
missing-parameter branches leave out entirely). -/
structure CheckInResult where
  success : Bool
  status : Option Status
  message : String
  name : Option String
  id : Option String
  checkInTime : Option String
  ticketType : Option String
  startTime : Option String
deriving DecidableEq

def msgTokenNotProvided : String := "トークンが指定されていません / Token not provided"
def msgInvalidTicket : String := "無効なチケットです / Invalid ticket"
def msgAlreadyCheckedIn : String := "既に入場済みです / Already checked in"
def msgCheckInSuccess : String := "入場を受け付けました / Check-in successful"
def msgMemberIdNotProvided : String := "会員IDが指定されていません / Member ID not provided"
def msgMemberIdNotFound : String := "会員IDが見つかりません / Member ID not found"

/-- row[6] with the read-time default StandardPass for an empty TicketType. -/
def displayTicketType (t : String) : String := if t = "" then "StandardPass" else t

/-- reEntryHistory ? `${reEntryHistory}\n${nowStr}` : nowStr -/
def appendHistory (old entry : String) : String :=
  if old = "" then entry else old ++ "\n" ++ entry

/-- The scan loop of checkInUser: find the first row whose Token cell equals
the scanned token; log a re-entry or record the check-in on that row.
Formatting the stored check-in time back out reproduces the stored string in
this model, so the WARNING branch reports the original checkInTime of the row. -/
def checkInScan (token now : String) : List Row → CheckInResult × List Row
  | [] =>
    ({ success := false, status := some Status.ERROR, message := msgInvalidTicket,
       name := none, id := none, checkInTime := none, ticketType := none,
       startTime := none }, [])
  | r :: rest =>
    if r.token = token then
      if r.checkInTime ≠ "" then
        ({ success := false, status := some Status.WARNING, message := msgAlreadyCheckedIn,
           name := some r.name, id := some r.id, checkInTime := some r.checkInTime,
           ticketType := some (displayTicketType r.ticketType),
           startTime := some r.startTime },
         { r with reEntryHistory := appendHistory r.reEntryHistory now } :: rest)
      else
        ({ success := true, status := some Status.SUCCESS, message := msgCheckInSuccess,
           name := some r.name, id := some r.id, checkInTime := some now,
           ticketType := some (displayTicketType r.ticketType),
           startTime := some r.startTime },
         { r with checkInTime := now } :: rest)
    else
      let res := checkInScan token now rest
      (res.1, r :: res.2)

/-- checkInUser(token) from Code.gs. -/
def checkInUser (token now : String) (rows : List Row) : CheckInResult × List Row :=
  if token = "" then
    ({ success := false, status := none, message := msgTokenNotProvided,
       name := none, id := none, checkInTime := none, ticketType := none,
       startTime := none }, rows)
  else checkInScan token now rows

/-- First row (index and row) matching the member id with an empty
CheckInTime cell: the row the manualCheckIn loop checks in immediately. -/
def scanFirstOpen (memberId : String) : List Row → Option (Nat × Row)
  | [] => none
  | r :: rest =>
    if r.id = memberId ∧ r.checkInTime = "" then some (0, r)
    else (scanFirstOpen memberId rest).map (fun p => (p.1 + 1, p.2))

/-- Last row (index and row) matching the member id: the loop keeps
overwriting its foundCheckedIn reference, so the final value is the last
match in scan order. -/
def scanLastMatch (memberId : String) : List Row → Option (Nat × Row)
  | [] => none
  | r :: rest =>
    match scanLastMatch memberId rest with
    | some p => some (p.1 + 1, p.2)
    | none => if r.id = memberId then some (0, r) else none

/-- manualCheckIn(memberId) from Code.gs.  The loop checks in the first
matching row without a CheckInTime and returns at once; otherwise it
remembers the last matching (checked-in) row and logs a re-entry there;
otherwise the id is unknown. -/
def manualCheckIn (memberId now : String) (rows : List Row) : CheckInResult × List Row :=
  if memberId = "" then
    ({ success := false, status := none, message := msgMemberIdNotProvided,
       name := none, id := none, checkInTime := none, ticketType := none,
       startTime := none }, rows)
  else
    match scanFirstOpen memberId rows with
    | some (i, r) =>
      ({ success := true, status := some Status.SUCCESS, message := msgCheckInSuccess,
         name := some r.name, id := some r.id, checkInTime := some now,
         ticketType := some (displayTicketType r.ticketType),
         startTime := some r.startTime },
       rows.set i { r with checkInTime := now })
    | none =>
      match scanLastMatch memberId rows with
      | some (j, r) =>
        ({ success := false, status := some Status.WARNING, message := msgAlreadyCheckedIn,
           name := some r.name, id := some r.id, checkInTime := some r.checkInTime,
           ticketType := some (displayTicketType r.ticketType),
           startTime := some r.startTime },
         rows.set j { r with reEntryHistory := appendHistory r.reEntryHistory now })
      | none =>
        ({ success := false, status := some Status.ERROR, message := msgMemberIdNotFound,
           name := none, id := none, checkInTime := none, ticketType := none,
           startTime := none }, rows)

/-- Insertion-ordered association map modelling both a JavaScript Map and a
plain object used as a dictionary: get returns the first (hence only) binding,
set overwrites in place or appends a new binding at the end. -/
def mapGet {V : Type} : List (String × V) → String → Option V
  | [], _ => none
  | (k2, v) :: rest, k => if k2 = k then some v else mapGet rest k

/-- Map.set / property assignment: overwrite the existing binding in place,
or append a fresh binding at the end (JavaScript insertion order). -/
def mapSet {V : Type} : List (String × V) → String → V → List (String × V)
  | [], k, v => [(k, v)]
  | (k2, v2) :: rest, k, v =>
    if k2 = k then (k, v) :: rest else (k2, v2) :: mapSet rest k v

/-- Per-ticket-type entry of the dashboard breakdown object. -/
@[ext]
structure BreakdownEntry where
  total : Nat
  checkedIn : Nat
deriving DecidableEq

/-- The object returned by getDashboardData. -/
structure DashboardData where
  total : Nat
  checkedIn : Nat
  notCheckedIn : Nat
  breakdown : List (String × BreakdownEntry)
deriving DecidableEq

/-- row[6] with the dashboard display default Unknown for an empty TicketType. -/
def dashDisplayType (t : String) : String := if t = "" then "Unknown" else t

/-- One iteration of the getDashboardData loop over (total, checkedIn, breakdown). -/
def dashStep (acc : Nat × Nat × List (String × BreakdownEntry)) (r : Row) :
    Nat × Nat × List (String × BreakdownEntry) :=
  if r.id ≠ "" then
    let t := dashDisplayType r.ticketType
    let cur := (mapGet acc.2.2 t).getD ⟨0, 0⟩
    let checked := r.checkInTime ≠ ""
    (acc.1 + 1,
     acc.2.1 + (if checked then 1 else 0),
     mapSet acc.2.2 t ⟨cur.total + 1, cur.checkedIn + (if checked then 1 else 0)⟩)
  else acc

/-- getDashboardData from Code.gs: single linear scan of the store. -/
def getDashboardData (rows : List Row) : DashboardData :=
  let acc := rows.foldl dashStep (0, 0, [])
  { total := acc.1, checkedIn := acc.2.1, notCheckedIn := acc.1 - acc.2.1,
    breakdown := acc.2.2 }

/-- One data row of the ECData sheet.  The Quantity cell is modelled by the
result of JavaScript parseInt on it: none when the cell is missing or does
not parse to a number (NaN), some n otherwise. -/
structure ECLine where
  id : String
  name : String
  ticketType : String
  quantity : Option Int
deriving DecidableEq

/-- One data row of the MemberMaster sheet. -/
structure MemberEntry where
  id : String
  name : String
  email : String
deriving DecidableEq

/-- The descriptive record kept per composite key by syncECData. -/
structure TInfo where
  id : String
  name : String
  ticketType : String
  startTime : String
deriving DecidableEq

/-- parseInt(cell) || 1: a missing or unparseable quantity, and also a parsed
zero, fall back to 1 (JavaScript falsiness of NaN and 0). -/
def qtyOf : Option Int → Int
  | none => 1
  | some n => if n = 0 then 1 else n

/-- Step 1 of syncECData: id-to-email lookup from MemberMaster, skipping rows
whose trimmed id is empty; a later duplicate id overwrites the earlier one. -/
def emailMapOf (master : List MemberEntry) : List (String × String) :=
  master.foldl
    (fun m e =>
      let i := jsTrim e.id
      if i ≠ "" then mapSet m i (jsTrim e.email) else m) []

/-- The TicketType cell defaulted to StandardPass when empty and then trimmed, as done by
both the ECData aggregation and the existing-row counting in syncECData. -/
def ecDisplayType (t : String) : String := jsTrim (if t = "" then "StandardPass" else t)

/-- The trimmed id of an ECData line. -/
def lineId (line : ECLine) : String := jsTrim line.id

/-- The canonicalized ticket type of an ECData line. -/
def lineType (line : ECLine) : String := normalizeTicketType (ecDisplayType line.ticketType)

/-- The composite key `${id}_${ticketType}` of an ECData line. -/
def lineKey (line : ECLine) : String := lineId line ++ "_" ++ lineType line

/-- The descriptive record syncECData stores the first time a key is seen. -/
def lineInfo (line : ECLine) : TInfo :=
  { id := lineId line, name := line.name, ticketType := lineType line,
    startTime := startTimeFor (lineType line) }

/-- Step 2 of syncECData, one ECData row: accumulate the required quantity per
composite key and keep the first descriptive record per key. -/
def reqStep (acc : List (String × Int) × List (String × TInfo)) (line : ECLine) :
    List (String × Int) × List (String × TInfo) :=
  if lineId line = "" then acc
  else
    let key := lineKey line
    let req := mapSet acc.1 key ((mapGet acc.1 key).getD 0 + qtyOf line.quantity)
    let inf :=
      if (mapGet acc.2 key).isNone then mapSet acc.2 key (lineInfo line) else acc.2
    (req, inf)

/-- Steps 1 and 2 of syncECData over the whole ECData sheet. -/
def requiredAndInfo (ec : List ECLine) : List (String × Int) × List (String × TInfo) :=
  ec.foldl reqStep ([], [])

/-- The composite key under which an existing Attendees row is counted in
step 3 of syncECData. -/
def rowKey (r : Row) : String := jsTrim r.id ++ "_" ++ ecDisplayType r.ticketType

/-- Step 3 of syncECData: count current store rows (nonempty trimmed id) per
composite key. -/
def existingCounts (att : List Row) : List (String × Int) :=
  att.foldl
    (fun m r =>
      if jsTrim r.id ≠ "" then mapSet m (rowKey r) ((mapGet m (rowKey r)).getD 0 + 1) else m)
    []

/-- The AttendeeRecord row synthesized for a key: empty Token, CheckInTime,
EmailSent, ReEntryHistory and Inviter; GuestPass gets a name suffix and note. -/
def mkSyncRow (info : TInfo) (email : String) : Row :=
  { id := info.id,
    name := if info.ticketType = "GuestPass" then info.name ++ " (Guest)" else info.name,
    email := email,
    token := "", checkInTime := "", emailSent := "",
    ticketType := info.ticketType, startTime := info.startTime,
    reEntryHistory := "", inviter := "",
    note := if info.ticketType = "GuestPass" then "Guest Ticket" else "" }

/-- Step 4 of syncECData: walk the required keys in insertion order and
synthesize shortfall-many rows per key, counting matched and missing emails
once per key with a positive shortfall. -/
def generateRows (infoM : List (String × TInfo)) (existing : List (String × Int))
    (emailM : List (String × String)) : List (String × Int) → List Row × Nat × Nat
  | [] => ([], 0, 0)
  | (key, needed) :: rest =>
    let acc := generateRows infoM existing emailM rest
    match mapGet infoM key with
    | none => acc
    | some info =>
      let toCreate := needed - (mapGet existing key).getD 0
      if 0 < toCreate then
        let email := (mapGet emailM info.id).getD ""
        (List.replicate toCreate.toNat (mkSyncRow info email) ++ acc.1,
         (if email ≠ "" then 1 else 0) + acc.2.1,
         (if email = "" then 1 else 0) + acc.2.2)
      else acc

/-- syncECData from Code.gs, as a function of the three sheets: returns the
batch of rows to append plus the matched and missing email counters. -/
def syncECData (ec : List ECLine) (master : List MemberEntry) (att : List Row) :
    List Row × Nat × Nat :=
  let ri := requiredAndInfo ec
  generateRows ri.2 (existingCounts att) (emailMapOf master) ri.1

/-- Step 5 of syncECData: the store after the batch append. -/
def syncStore (ec : List ECLine) (master : List MemberEntry) (att : List Row) : List Row :=
  att ++ (syncECData ec master att).1

/-! Lemmas about the token scan of checkInUser. -/

theorem checkInScan_found_open (token now : String) (rows : List Row) :
    ∀ (i : Nat) (r : Row), rows[i]? = some r → r.token = token → r.checkInTime = "" →
      (∀ j rj, j < i → rows[j]? = some rj → rj.token ≠ token) →
      checkInScan token now rows =
        ({ success := true, status := some Status.SUCCESS, message := msgCheckInSuccess,
           name := some r.name, id := some r.id, checkInTime := some now,
           ticketType := some (displayTicketType r.ticketType),
           startTime := some r.startTime },
         rows.set i { r with checkInTime := now }) := by
  induction rows with
  | nil => intro i r h; simp at h
  | cons a rest ih =>
    intro i r h1 h2 h3 h4
    cases i with
    | zero =>
      simp at h1
      subst h1
      simp [checkInScan, h2, h3]
    | succ n =>
      have ha : a.token ≠ token := h4 0 a (Nat.succ_pos n) (by simp)
      have hrec := ih n r (by simpa using h1) h2 h3
        (fun j rj hj hg => h4 (j + 1) rj (Nat.succ_lt_succ hj) (by simpa using hg))
      simp [checkInScan, ha, hrec]

theorem checkInScan_found_checked (token now : String) (rows : List Row) :
    ∀ (i : Nat) (r : Row), rows[i]? = some r → r.token = token → r.checkInTime ≠ "" →
      (∀ j rj, j < i → rows[j]? = some rj → rj.token ≠ token) →
      checkInScan token now rows =
        ({ success := false, status := some Status.WARNING, message := msgAlreadyCheckedIn,
           name := some r.name, id := some r.id, checkInTime := some r.checkInTime,
           ticketType := some (displayTicketType r.ticketType),
           startTime := some r.startTime },
         rows.set i { r with reEntryHistory := appendHistory r.reEntryHistory now }) := by
  induction rows with
  | nil => intro i r h; simp at h
  | cons a rest ih =>
    intro i r h1 h2 h3 h4
    cases i with
    | zero =>
      simp at h1
      subst h1
      simp [checkInScan, h2, h3]
    | succ n =>
      have ha : a.token ≠ token := h4 0 a (Nat.succ_pos n) (by simp)
      have hrec := ih n r (by simpa using h1) h2 h3
        (fun j rj hj hg => h4 (j + 1) rj (Nat.succ_lt_succ hj) (by simpa using hg))
      simp [checkInScan, ha, hrec]

/-- The outcome of the second scan of the same token, after a first call. -/
def c1After (token now1 now2 : String) (rows : List Row) : CheckInResult × List Row :=
  checkInUser token now2 (checkInUser token now1 rows).2

/-- Claim C1: for a store row holding a given non-empty token with CheckInTime
unset (and no earlier row holding that token), one checkInUser call returns
SUCCESS and sets the CheckInTime of that row; a second call with the same token
returns WARNING, leaves CheckInTime unchanged, appends exactly one
newline-joined timestamp to the ReEntryHistory of that row, and reports the
original check-in time rather than the time of the second attempt. -/
theorem c1_token_check_in_twice
    (token now1 now2 : String) (rows : List Row) (i : Nat) (r : Row)
    (htok : token ≠ "") (hnow : now1 ≠ "")
    (hget : rows[i]? = some r) (hrtok : r.token = token) (hopen : r.checkInTime = "")
    (hfirst : ∀ j rj, j < i → rows[j]? = some rj → rj.token ≠ token) :
    (checkInUser token now1 rows).1.status = some Status.SUCCESS ∧
    (checkInUser token now1 rows).2 = rows.set i { r with checkInTime := now1 } ∧
    (c1After token now1 now2 rows).1.status = some Status.WARNING ∧
    (c1After token now1 now2 rows).1.checkInTime = some now1 ∧
    (c1After token now1 now2 rows).2 =
      rows.set i { r with checkInTime := now1,
                          reEntryHistory := appendHistory r.reEntryHistory now2 } ∧
    (c1After token now1 now2 rows).2[i]? =
      some { r with checkInTime := now1,
                    reEntryHistory := appendHistory r.reEntryHistory now2 } ∧
    ∀ j, j ≠ i → (c1After token now1 now2 rows).2[j]? = rows[j]? := by
  have hlen : i < rows.length := by
    rcases List.getElem?_eq_some_iff.mp hget with ⟨h, _⟩
    exact h
  have hfirstCall : checkInUser token now1 rows =
      ({ success := true, status := some Status.SUCCESS, message := msgCheckInSuccess,
         name := some r.name, id := some r.id, checkInTime := some now1,
         ticketType := some (displayTicketType r.ticketType),
         startTime := some r.startTime },
       rows.set i { r with checkInTime := now1 }) := by
    rw [checkInUser, if_neg htok]
    exact checkInScan_found_open token now1 rows i r hget hrtok hopen hfirst
  have hget1 : (rows.set i { r with checkInTime := now1 })[i]? =
      some { r with checkInTime := now1 } := List.getElem?_set_self hlen
  have hfirst1 : ∀ j rj, j < i →
      (rows.set i { r with checkInTime := now1 })[j]? = some rj → rj.token ≠ token := by
    intro j rj hj hg
    have : rows[j]? = some rj := by
      rwa [List.getElem?_set_ne (by omega)] at hg
    exact hfirst j rj hj this
  have hsecondCall : checkInUser token now2 (rows.set i { r with checkInTime := now1 }) =
      ({ success := false, status := some Status.WARNING, message := msgAlreadyCheckedIn,
         name := some r.name, id := some r.id, checkInTime := some now1,
         ticketType := some (displayTicketType r.ticketType),
         startTime := some r.startTime },
       rows.set i { r with checkInTime := now1,
                           reEntryHistory := appendHistory r.reEntryHistory now2 }) := by
    rw [checkInUser, if_neg htok]
    have := checkInScan_found_checked token now2 (rows.set i { r with checkInTime := now1 })
      i { r with checkInTime := now1 } hget1 hrtok hnow hfirst1
    rw [this, List.set_set]
  have hafter : c1After token now1 now2 rows =
      ({ success := false, status := some Status.WARNING, message := msgAlreadyCheckedIn,
         name := some r.name, id := some r.id, checkInTime := some now1,
         ticketType := some (displayTicketType r.ticketType),
         startTime := some r.startTime },
       rows.set i { r with checkInTime := now1,
                           reEntryHistory := appendHistory r.reEntryHistory now2 }) := by
    rw [c1After, hfirstCall]
    exact hsecondCall
  refine ⟨by rw [hfirstCall], by rw [hfirstCall], by rw [hafter], by rw [hafter],
    by rw [hafter], ?_, ?_⟩
  · rw [hafter]
    exact List.getElem?_set_self hlen
  · intro j hj
    rw [hafter]
    exact List.getElem?_set_ne (by omega)

/-- A store with one not-yet-checked-in row holding token tok1. -/
def c1Store : List Row :=
  [{ id := "A1", name := "Alice", email := "a@example.com", token := "tok1",
     checkInTime := "", emailSent := "", ticketType := "VIP Pass",
     startTime := "18:30-19:00", reEntryHistory := "", inviter := "", note := "" }]

theorem c1_token_check_in_twice_witness :
    ("tok1" : String) ≠ "" ∧
    (checkInUser "tok1" "2025-01-01 18:00:00" c1Store).1.status = some Status.SUCCESS ∧
    (c1After "tok1" "2025-01-01 18:00:00" "2025-01-01 18:10:00" c1Store).1.checkInTime =
      some "2025-01-01 18:00:00" := by
  have h := c1_token_check_in_twice "tok1" "2025-01-01 18:00:00" "2025-01-01 18:10:00"
    c1Store 0 (c1Store.get ⟨0, by decide⟩) (by decide) (by decide) (by decide) (by decide)
    (by decide) (fun j rj hj => absurd hj (Nat.not_lt_zero j))
  exact ⟨by decide, h.1, h.2.2.2.1⟩

/-! Lemmas about the two scans of manualCheckIn. -/

theorem scanFirstOpen_eq_none (m : String) (rows : List Row) :
    scanFirstOpen m rows = none ↔ ∀ r ∈ rows, ¬(r.id = m ∧ r.checkInTime = "") := by
  induction rows with
  | nil => simp [scanFirstOpen]
  | cons a rest ih =>
    by_cases h : a.id = m ∧ a.checkInTime = ""
    · simp [scanFirstOpen, h]
    · simp only [scanFirstOpen, if_neg h, Option.map_eq_none', ih, List.mem_cons]
      constructor
      · intro hall r hr
        rcases hr with hr | hr
        · subst hr; exact h
        · exact hall r hr
      · intro hall r hr
        exact hall r (Or.inr hr)

theorem scanFirstOpen_eq_some (m : String) (rows : List Row) :
    ∀ i r, scanFirstOpen m rows = some (i, r) →
      rows[i]? = some r ∧ r.id = m ∧ r.checkInTime = "" ∧
      ∀ j rj, j < i → rows[j]? = some rj → ¬(rj.id = m ∧ rj.checkInTime = "") := by
  induction rows with
  | nil => intro i r h; simp [scanFirstOpen] at h
  | cons a rest ih =>
    intro i r h
    by_cases ha : a.id = m ∧ a.checkInTime = ""
    · rw [scanFirstOpen, if_pos ha] at h
      obtain ⟨hi, hr⟩ : 0 = i ∧ a = r := by
        constructor <;> [exact congrArg Prod.fst (Option.some.inj h);
          exact congrArg Prod.snd (Option.some.inj h)]
      subst hi; subst hr
      exact ⟨by simp, ha.1, ha.2, fun j rj hj _ => absurd hj (Nat.not_lt_zero j)⟩
    · rw [scanFirstOpen, if_neg ha] at h
      rcases ho : scanFirstOpen m rest with _ | p
      · rw [ho] at h; simp at h
      · rw [ho] at h
        simp only [Option.map_some'] at h
        obtain ⟨hi, hr⟩ : p.1 + 1 = i ∧ p.2 = r := by
          constructor <;> [exact congrArg Prod.fst (Option.some.inj h);
            exact congrArg Prod.snd (Option.some.inj h)]
        subst hi; subst hr
        obtain ⟨g1, g2, g3, g4⟩ := ih p.1 p.2 (by rw [ho])
        refine ⟨by simpa using g1, g2, g3, ?_⟩
        intro j rj hj hg
        cases j with
        | zero =>
          have : a = rj := by simpa using hg
          subst this
          exact ha
        | succ n => exact g4 n rj (by omega) (by simpa using hg)

theorem scanLastMatch_eq_none (m : String) (rows : List Row) :
    scanLastMatch m rows = none ↔ ∀ r ∈ rows, r.id ≠ m := by
  induction rows with
  | nil => simp [scanLastMatch]
  | cons a rest ih =>
    rcases ho : scanLastMatch m rest with _ | p
    · by_cases h : a.id = m <;> simp [scanLastMatch, ho, h, ih.mp ho] <;> tauto

    · have : ¬ ∀ r ∈ rest, r.id ≠ m := fun hall => by
        rw [ih.mpr hall] at ho; exact Option.noConfusion ho
      simp only [scanLastMatch, ho]
      constructor
      · intro h; simp at h
      · intro hall
        exact absurd (fun r hr => hall r (List.mem_cons_of_mem a hr)) this

theorem scanLastMatch_eq_some (m : String) (rows : List Row) :
    ∀ j r, scanLastMatch m rows = some (j, r) →
      rows[j]? = some r ∧ r.id = m ∧
      ∀ k rk, j < k → rows[k]? = some rk → rk.id ≠ m := by
  induction rows with
  | nil => intro j r h; simp [scanLastMatch] at h
  | cons a rest ih =>
    intro j r h
    rcases ho : scanLastMatch m rest with _ | p
    · rw [scanLastMatch, ho] at h
      by_cases hm : a.id = m
      · rw [if_pos hm] at h
        obtain ⟨hj, hr⟩ : 0 = j ∧ a = r := by
          constructor <;> [exact congrArg Prod.fst (Option.some.inj h);
            exact congrArg Prod.snd (Option.some.inj h)]
        subst hj; subst hr
        refine ⟨by simp, hm, ?_⟩
        intro k rk hk hg
        cases k with
        | zero => exact absurd hk (Nat.lt_irrefl 0)
        | succ n =>
          have hg2 : rest[n]? = some rk := by simpa using hg
          exact (scanLastMatch_eq_none m rest).mp ho rk (List.getElem?_mem hg2)
      · rw [if_neg hm] at h
        exact absurd h (fun hh => Option.noConfusion hh)
    · rw [scanLastMatch, ho] at h
      obtain ⟨hj, hr⟩ : p.1 + 1 = j ∧ p.2 = r := by
        constructor <;> [exact congrArg Prod.fst (Option.some.inj h);
          exact congrArg Prod.snd (Option.some.inj h)]
      subst hj; subst hr
      obtain ⟨g1, g2, g3⟩ := ih p.1 p.2 (by rw [ho])
      refine ⟨by simpa using g1, g2, ?_⟩
      intro k rk hk hg
      cases k with
      | zero => exact absurd hk (by omega)
      | succ n => exact g3 n rk (by omega) (by simpa using hg)

theorem open_match_of_count (m : String) (rows : List Row)
    (h : rows.countP (fun r => r.id == m && r.checkInTime != "") <
         rows.countP (fun r => r.id == m)) :
    ∃ r ∈ rows, r.id = m ∧ r.checkInTime = "" := by
  induction rows with
  | nil => simp at h
  | cons a rest ih =>
    rw [List.countP_cons, List.countP_cons] at h
    by_cases h1 : a.id = m
    · by_cases h2 : a.checkInTime = ""
      · exact ⟨a, by simp, h1, h2⟩
      · have ha : (a.id == m && a.checkInTime != "") = true := by simp [h1, h2]
        have hb : (a.id == m) = true := by simp [h1]
        rw [ha] at h; rw [hb] at h; simp at h
        obtain ⟨r, hr, hp⟩ := ih (by omega)
        exact ⟨r, by simp [hr], hp⟩
    · have ha : (a.id == m && a.checkInTime != "") = false := by simp [h1]
      have hb : (a.id == m) = false := by simp [h1]
      rw [ha] at h; rw [hb] at h; simp at h
      obtain ⟨r, hr, hp⟩ := ih (by omega)
      exact ⟨r, by simp [hr], hp⟩

/-- Claim C4: when N rows match the member id and only M < N of them are
checked in, manualCheckIn returns SUCCESS, sets CheckInTime on exactly the
first not-yet-checked-in matching row in scan order, and leaves every other
row (histories included) unchanged. -/
theorem c4_manual_first_open
    (m now : String) (rows : List Row) (hm : m ≠ "")
    (hcount : rows.countP (fun r => r.id == m && r.checkInTime != "") <
              rows.countP (fun r => r.id == m)) :
    (manualCheckIn m now rows).1.status = some Status.SUCCESS ∧
    ∃ i r, rows[i]? = some r ∧ r.id = m ∧ r.checkInTime = "" ∧
      (∀ j rj, j < i → rows[j]? = some rj → ¬(rj.id = m ∧ rj.checkInTime = "")) ∧
      (manualCheckIn m now rows).2 = rows.set i { r with checkInTime := now } ∧
      (manualCheckIn m now rows).2[i]? = some { r with checkInTime := now } ∧
      ∀ j, j ≠ i → (manualCheckIn m now rows).2[j]? = rows[j]? := by
  obtain ⟨q, hq, hq1, hq2⟩ := open_match_of_count m rows hcount
  rcases hs : scanFirstOpen m rows with _ | p
  · exact absurd ((scanFirstOpen_eq_none m rows).mp hs q hq) (by tauto)
  · obtain ⟨i, r⟩ := p
    obtain ⟨g1, g2, g3, g4⟩ := scanFirstOpen_eq_some m rows i r hs
    have hlen : i < rows.length := by
      rcases List.getElem?_eq_some_iff.mp g1 with ⟨h, _⟩
      exact h
    have hrun : manualCheckIn m now rows =
        ({ success := true, status := some Status.SUCCESS, message := msgCheckInSuccess,
           name := some r.name, id := some r.id, checkInTime := some now,
           ticketType := some (displayTicketType r.ticketType),
           startTime := some r.startTime },
         rows.set i { r with checkInTime := now }) := by
      rw [manualCheckIn, if_neg hm, hs]
    refine ⟨by rw [hrun], i, r, g1, g2, g3, g4, by rw [hrun], ?_, ?_⟩
    · rw [hrun]
      exact List.getElem?_set_self hlen
    · intro j hj
      rw [hrun]
      exact List.getElem?_set_ne (by omega)

/-- Store for the C4 witness: two rows for id M1, the first checked in. -/
def c4Store : List Row :=
  [{ id := "M1", name := "Ken", email := "k@example.com", token := "t1",
     checkInTime := "2025-01-01 11:00:00", emailSent := "", ticketType := "StandardPass",
     startTime := "11:00-12:00", reEntryHistory := "", inviter := "", note := "" },
   { id := "M1", name := "Ken", email := "k@example.com", token := "t2",
     checkInTime := "", emailSent := "", ticketType := "StandardPass",
     startTime := "11:00-12:00", reEntryHistory := "", inviter := "", note := "" }]

theorem c4_manual_first_open_witness :
    ("M1" : String) ≠ "" ∧
    c4Store.countP (fun r => r.id == "M1" && r.checkInTime != "") <
      c4Store.countP (fun r => r.id == "M1") ∧
    (manualCheckIn "M1" "2025-01-01 12:00:00" c4Store).1.status = some Status.SUCCESS := by
  have h := c4_manual_first_open "M1" "2025-01-01 12:00:00" c4Store (by decide) (by decide)
  exact ⟨by decide, by decide, h.1⟩

/-- Claim C5: with the member id present and every matching row already
checked in, manualCheckIn returns WARNING carrying the original check-in
time of the last matching row, appends exactly one re-entry timestamp to the
history of that last row, changes nothing else and no CheckInTime at all; with no
matching row it returns the member-id-not-found ERROR outcome. -/
theorem c5_manual_all_checked_or_missing (m now : String) (rows : List Row) (hm : m ≠ "") :
    ((∃ r ∈ rows, r.id = m) → (∀ r ∈ rows, r.id = m → r.checkInTime ≠ "") →
      (manualCheckIn m now rows).1.status = some Status.WARNING ∧
      ∃ j r, rows[j]? = some r ∧ r.id = m ∧
        (∀ k rk, j < k → rows[k]? = some rk → rk.id ≠ m) ∧
        (manualCheckIn m now rows).1.checkInTime = some r.checkInTime ∧
        (manualCheckIn m now rows).2 =
          rows.set j { r with reEntryHistory := appendHistory r.reEntryHistory now } ∧
        (∀ k, k ≠ j → (manualCheckIn m now rows).2[k]? = rows[k]?) ∧
        (∀ k : Nat, ((manualCheckIn m now rows).2[k]?).map Row.checkInTime =
          (rows[k]?).map Row.checkInTime)) ∧
    ((∀ r ∈ rows, r.id ≠ m) →
      (manualCheckIn m now rows).1 =
        { success := false, status := some Status.ERROR, message := msgMemberIdNotFound,
          name := none, id := none, checkInTime := none, ticketType := none,
          startTime := none } ∧
      (manualCheckIn m now rows).2 = rows) := by
  constructor
  · intro hex hall
    have hs : scanFirstOpen m rows = none :=
      (scanFirstOpen_eq_none m rows).mpr
        (fun r hr hc => hall r hr hc.1 hc.2)
    rcases hl : scanLastMatch m rows with _ | p
    · obtain ⟨q, hq, hq1⟩ := hex
      exact absurd ((scanLastMatch_eq_none m rows).mp hl q hq) (by tauto)
    · obtain ⟨j, r⟩ := p
      obtain ⟨g1, g2, g3⟩ := scanLastMatch_eq_some m rows j r hl
      have hlen : j < rows.length := by
        rcases List.getElem?_eq_some_iff.mp g1 with ⟨h, _⟩
        exact h
      have hrun : manualCheckIn m now rows =
          ({ success := false, status := some Status.WARNING, message := msgAlreadyCheckedIn,
             name := some r.name, id := some r.id, checkInTime := some r.checkInTime,
             ticketType := some (displayTicketType r.ticketType),
             startTime := some r.startTime },
           rows.set j { r with reEntryHistory := appendHistory r.reEntryHistory now }) := by
        rw [manualCheckIn, if_neg hm, hs, hl]
      refine ⟨by rw [hrun], j, r, g1, g2, g3, by rw [hrun], by rw [hrun], ?_, ?_⟩
      · intro k hk
        rw [hrun]
        exact List.getElem?_set_ne (by omega)
      · intro k
        rw [hrun]
        by_cases hk : k = j
        · subst hk
          rw [List.getElem?_set_self hlen, g1]
          rfl
        · rw [List.getElem?_set_ne (by omega)]
  · intro hnone
    have hs : scanFirstOpen m rows = none :=
      (scanFirstOpen_eq_none m rows).mpr (fun r hr hc => hnone r hr hc.1)
    have hl : scanLastMatch m rows = none := (scanLastMatch_eq_none m rows).mpr hnone
    rw [manualCheckIn, if_neg hm, hs, hl]
    exact ⟨rfl, rfl⟩

/-- Store for the C5 witness: two rows for id M2, both already checked in. -/
def c5Store : List Row :=
  [{ id := "M2", name := "Yui", email := "y@example.com", token := "u1",
     checkInTime := "2025-01-01 11:00:00", emailSent := "", ticketType := "VIP Pass",
     startTime := "18:30-19:00", reEntryHistory := "", inviter := "", note := "" },
   { id := "M2", name := "Yui", email := "y@example.com", token := "u2",
     checkInTime := "2025-01-01 11:05:00", emailSent := "", ticketType := "VIP Pass",
     startTime := "18:30-19:00", reEntryHistory := "", inviter := "", note := "" }]

theorem c5_manual_all_checked_or_missing_witness :
    ("M2" : String) ≠ "" ∧
    (manualCheckIn "M2" "2025-01-01 12:00:00" c5Store).1.status = some Status.WARNING ∧
    (manualCheckIn "ZZ" "2025-01-01 12:00:00" c5Store).1.status = some Status.ERROR := by
  have h2 := (c5_manual_all_checked_or_missing "M2" "2025-01-01 12:00:00" c5Store
    (by decide)).1 (by decide) (by decide)
  have h3 := (c5_manual_all_checked_or_missing "ZZ" "2025-01-01 12:00:00" c5Store
    (by decide)).2 (by decide)
  exact ⟨by decide, h2.1, by rw [h3.1]⟩

/-- Claim C6: normalization is total and matches the examples: "15400" maps
to PriorityPass with window 18:30-19:00, "役員招待枠" maps to VIP Pass with
window 18:30-19:00, and a label that is neither rewritten by the alias chain
nor a TICKET_CONFIG key passes through unchanged with the default window
11:00-12:00.  Totality holds by construction: both functions are total Lean
functions on all strings. -/
theorem c6_ticket_normalization :
    (normalizeTicketType "15400" = "PriorityPass" ∧
      startTimeFor (normalizeTicketType "15400") = "18:30-19:00") ∧
    (normalizeTicketType "役員招待枠" = "VIP Pass" ∧
      startTimeFor (normalizeTicketType "役員招待枠") = "18:30-19:00") ∧
    ∀ t : String, isLegacyAliasInput t = false → ticketConfigLookup t = none →
      normalizeTicketType t = t ∧ startTimeFor (normalizeTicketType t) = defaultStartTime := by
  refine ⟨by constructor <;> decide, by constructor <;> decide, ?_⟩
  intro t h1 h2
  simp only [isLegacyAliasInput, Bool.or_eq_false_iff, beq_eq_false_iff_ne, ne_eq] at h1
  obtain ⟨⟨⟨⟨⟨⟨⟨⟨⟨n1, n2⟩, n3⟩, n4⟩, n5⟩, n6⟩, n7⟩, n8⟩, n9⟩, n10⟩ := h1
  have hn : normalizeTicketType t = t := by
    rw [normalizeTicketType]
    rw [if_neg (by tauto), if_neg (by tauto), if_neg (by tauto), if_neg (by tauto),
      if_neg (by tauto)]
  refine ⟨hn, ?_⟩
  rw [hn, startTimeFor, h2]
  rfl

theorem c6_ticket_normalization_witness :
    isLegacyAliasInput "SpecialSeat2026" = false ∧
    ticketConfigLookup "SpecialSeat2026" = none ∧
    normalizeTicketType "SpecialSeat2026" = "SpecialSeat2026" ∧
    startTimeFor (normalizeTicketType "SpecialSeat2026") = defaultStartTime := by
  have h := c6_ticket_normalization.2.2 "SpecialSeat2026" (by decide) (by decide)
  exact ⟨by decide, by decide, h.1, h.2⟩

/-- Claim C8 counterexample: checkInUser on the empty token returns an
outcome with no status field at all (modelled as none), not one with status
ERROR as the claim states. -/
theorem c8_empty_token_counterexample :
    (checkInUser "" "2025-01-01 10:00:00" []).1.status = none ∧
    ¬ (checkInUser "" "2025-01-01 10:00:00" []).1.status = some Status.ERROR := by
  exact ⟨by decide, by decide⟩

/-- Claim C8 as amended: for the empty token, checkInUser returns success
false with the token-not-provided message but no status field; for every
non-empty token matching no stored token it returns status ERROR with the
invalid-ticket message; in both cases the store is unmodified. -/
theorem c8_error_cases (token now : String) (rows : List Row) :
    (checkInUser "" now rows =
      ({ success := false, status := none, message := msgTokenNotProvided, name := none,
         id := none, checkInTime := none, ticketType := none, startTime := none }, rows)) ∧
    (token ≠ "" → (∀ r ∈ rows, r.token ≠ token) →
      checkInUser token now rows =
        ({ success := false, status := some Status.ERROR, message := msgInvalidTicket,
           name := none, id := none, checkInTime := none, ticketType := none,
           startTime := none }, rows)) := by
  constructor
  · rw [checkInUser, if_pos rfl]
  · intro htok hnone
    rw [checkInUser, if_neg htok]
    induction rows with
    | nil => rfl
    | cons a rest ih =>
      have ha : a.token ≠ token := hnone a (by simp)
      have hrec := ih (fun x hx => hnone x (by simp [hx]))
      simp [checkInScan, ha, hrec]

theorem c8_error_cases_witness :
    ("tokZ" : String) ≠ "" ∧
    checkInUser "tokZ" "2025-01-01 10:00:00" c1Store =
      ({ success := false, status := some Status.ERROR, message := msgInvalidTicket,
         name := none, id := none, checkInTime := none, ticketType := none,
         startTime := none }, c1Store) := by
  have h := (c8_error_cases "tokZ" "2025-01-01 10:00:00" c1Store).2 (by decide) (by decide)
  exact ⟨by decide, h⟩

/-! The success flag as a function of the status field (claim C10). -/

theorem checkInScan_success_eq_status (token now : String) (rows : List Row) :
    (checkInScan token now rows).1.success =
      ((checkInScan token now rows).1.status == some Status.SUCCESS) := by
  induction rows with
  | nil => rfl
  | cons a rest ih =>
    by_cases h1 : a.token = token
    · by_cases h2 : a.checkInTime = "" <;> simp [checkInScan, h1, h2]
    · simp [checkInScan, h1, ih]

/-- Claim C10: for both entry points the returned success flag is true
exactly when the status field is SUCCESS; in particular the WARNING outcome
of a recorded re-entry carries success false, indistinguishable from an
error by the flag alone. -/
theorem c10_success_flag (token memberId now : String) (rows : List Row) :
    ((checkInUser token now rows).1.success =
      ((checkInUser token now rows).1.status == some Status.SUCCESS)) ∧
    ((manualCheckIn memberId now rows).1.success =
      ((manualCheckIn memberId now rows).1.status == some Status.SUCCESS)) ∧
    ((checkInUser token now rows).1.success = true ↔
      (checkInUser token now rows).1.status = some Status.SUCCESS) ∧
    ((manualCheckIn memberId now rows).1.success = true ↔
      (manualCheckIn memberId now rows).1.status = some Status.SUCCESS) := by
  have h1 : (checkInUser token now rows).1.success =
      ((checkInUser token now rows).1.status == some Status.SUCCESS) := by
    by_cases h : token = ""
    · simp [checkInUser, h]
    · simp only [checkInUser, if_neg h]
      exact checkInScan_success_eq_status token now rows
  have h2 : (manualCheckIn memberId now rows).1.success =
      ((manualCheckIn memberId now rows).1.status == some Status.SUCCESS) := by
    by_cases h : memberId = ""
    · simp [manualCheckIn, h]
    · rw [manualCheckIn, if_neg h]
      rcases hs : scanFirstOpen memberId rows with _ | p
      · rcases hl : scanLastMatch memberId rows with _ | q
        · rfl
        · obtain ⟨j, r⟩ := q
          rfl
      · obtain ⟨i, r⟩ := p
        rfl
  refine ⟨h1, h2, ?_, ?_⟩
  · rw [h1]
    cases hs : (checkInUser token now rows).1.status with
    | none => simp
    | some s => cases s <;> simp
  · rw [h2]
    cases hs : (manualCheckIn memberId now rows).1.status with
    | none => simp
    | some s => cases s <;> simp

/-! Association map lemmas and the dashboard aggregation (claim C9). -/

theorem mapGet_mapSet {V : Type} (m : List (String × V)) (k k2 : String) (v : V) :
    mapGet (mapSet m k v) k2 = if k = k2 then some v else mapGet m k2 := by
  induction m with
  | nil => simp [mapSet, mapGet]
  | cons p rest ih =>
    obtain ⟨k3, v3⟩ := p
    by_cases h : k3 = k
    · subst h
      by_cases h2 : k3 = k2 <;> simp [mapSet, mapGet, h2]
    · by_cases h2 : k3 = k2
      · subst h2
        simp [mapSet, mapGet, h, Ne.symm h]
      · simp [mapSet, mapGet, h, h2, ih]

/-- A row counts toward the dashboard totals. -/
def countedRow (r : Row) : Bool := r.id != ""

/-- A row counts toward the dashboard checked-in total. -/
def checkedRow (r : Row) : Bool := r.id != "" && r.checkInTime != ""

/-- A row counts toward the breakdown total of display type t. -/
def typeRow (t : String) (r : Row) : Bool := r.id != "" && dashDisplayType r.ticketType == t

/-- A row counts toward the breakdown checked-in total of display type t. -/
def typeCheckedRow (t : String) (r : Row) : Bool := typeRow t r && r.checkInTime != ""

theorem dashFold_spec (rows : List Row) :
    ∀ acc : Nat × Nat × List (String × BreakdownEntry),
      (rows.foldl dashStep acc).1 = acc.1 + rows.countP countedRow ∧
      (rows.foldl dashStep acc).2.1 = acc.2.1 + rows.countP checkedRow ∧
      ∀ t : String,
        ((mapGet (rows.foldl dashStep acc).2.2 t).getD ⟨0, 0⟩).total =
          ((mapGet acc.2.2 t).getD ⟨0, 0⟩).total + rows.countP (typeRow t) ∧
        ((mapGet (rows.foldl dashStep acc).2.2 t).getD ⟨0, 0⟩).checkedIn =
          ((mapGet acc.2.2 t).getD ⟨0, 0⟩).checkedIn + rows.countP (typeCheckedRow t) := by
  induction rows with
  | nil => intro acc; simp
  | cons r rest ih =>
    intro acc
    rw [List.foldl_cons]
    by_cases hid : r.id = ""
    · have hstep : dashStep acc r = acc := by
        simp [dashStep, hid]
      rw [hstep]
      obtain ⟨ih1, ih2, ih3⟩ := ih acc
      have hc : countedRow r = false := by simp [countedRow, hid]
      have hch : checkedRow r = false := by simp [checkedRow, hid]
      refine ⟨?_, ?_, ?_⟩
      · rw [ih1, List.countP_cons, hc]; simp
      · rw [ih2, List.countP_cons, hch]; simp
      · intro t
        have ht : typeRow t r = false := by simp [typeRow, hid]
        have htc : typeCheckedRow t r = false := by simp [typeCheckedRow, ht]
        obtain ⟨e1, e2⟩ := ih3 t
        constructor
        · rw [e1, List.countP_cons, ht]; simp
        · rw [e2, List.countP_cons, htc]; simp
    · have hstep : dashStep acc r =
          (acc.1 + 1,
           acc.2.1 + (if r.checkInTime ≠ "" then 1 else 0),
           mapSet acc.2.2 (dashDisplayType r.ticketType)
             ⟨((mapGet acc.2.2 (dashDisplayType r.ticketType)).getD ⟨0, 0⟩).total + 1,
              ((mapGet acc.2.2 (dashDisplayType r.ticketType)).getD ⟨0, 0⟩).checkedIn +
                (if r.checkInTime ≠ "" then 1 else 0)⟩) := by
        simp [dashStep, hid]
      rw [hstep]
      obtain ⟨ih1, ih2, ih3⟩ := ih
        (acc.1 + 1,
         acc.2.1 + (if r.checkInTime ≠ "" then 1 else 0),
         mapSet acc.2.2 (dashDisplayType r.ticketType)
           ⟨((mapGet acc.2.2 (dashDisplayType r.ticketType)).getD ⟨0, 0⟩).total + 1,
            ((mapGet acc.2.2 (dashDisplayType r.ticketType)).getD ⟨0, 0⟩).checkedIn +
              (if r.checkInTime ≠ "" then 1 else 0)⟩)
      have hc : countedRow r = true := by simp [countedRow, hid]
      refine ⟨?_, ?_, ?_⟩
      · rw [ih1, List.countP_cons, hc]
        simp
        omega
      · rw [ih2, List.countP_cons]
        have hch : checkedRow r = (r.checkInTime != "") := by simp [checkedRow, hid]
        rw [hch]
        by_cases hcc : r.checkInTime = "" <;> simp [hcc] <;> omega
      · intro t
        obtain ⟨e1, e2⟩ := ih3 t
        rw [e1, e2, mapGet_mapSet]
        by_cases hteq : dashDisplayType r.ticketType = t
        · rw [if_pos hteq]
          subst hteq
          have ht : typeRow (dashDisplayType r.ticketType) r = true := by
            simp [typeRow, hid]
          have htc : typeCheckedRow (dashDisplayType r.ticketType) r = (r.checkInTime != "") := by
            simp [typeCheckedRow, ht]
          constructor
          · rw [List.countP_cons, ht]
            simp
            omega
          · rw [List.countP_cons, htc]
            by_cases hcc : r.checkInTime = "" <;> simp [hcc] <;> omega
        · rw [if_neg hteq]
          have ht : typeRow t r = false := by simp [typeRow, hteq]
          have htc : typeCheckedRow t r = false := by simp [typeCheckedRow, ht]
          constructor
          · rw [List.countP_cons, ht]; simp
          · rw [List.countP_cons, htc]; simp

/-- Claim C9: getDashboardData is a pure function of the rows: the empty
store yields all-zero counters with an empty breakdown; a row counts toward
total (and the breakdown total of its display type, the missing type shown as
Unknown) exactly when its id is nonempty, toward checkedIn exactly when
additionally its CheckInTime is set, and notCheckedIn is total minus
checkedIn. -/
theorem c9_dashboard :
    (getDashboardData [] =
      { total := 0, checkedIn := 0, notCheckedIn := 0, breakdown := [] }) ∧
    ∀ rows : List Row,
      (getDashboardData rows).total = rows.countP countedRow ∧
      (getDashboardData rows).checkedIn = rows.countP checkedRow ∧
      (getDashboardData rows).notCheckedIn =
        (getDashboardData rows).total - (getDashboardData rows).checkedIn ∧
      ∀ t : String,
        (mapGet (getDashboardData rows).breakdown t).getD ⟨0, 0⟩ =
          ⟨rows.countP (typeRow t), rows.countP (typeCheckedRow t)⟩ := by
  refine ⟨rfl, ?_⟩
  intro rows
  obtain ⟨h1, h2, h3⟩ := dashFold_spec rows (0, 0, [])
  refine ⟨by simpa using h1, by simpa using h2, rfl, ?_⟩
  intro t
  obtain ⟨e1, e2⟩ := h3 t
  have : (mapGet ([] : List (String × BreakdownEntry)) t).getD ⟨0, 0⟩ =
      (⟨0, 0⟩ : BreakdownEntry) := rfl
  rw [this] at e1 e2
  apply BreakdownEntry.ext
  · simpa [getDashboardData] using e1
  · simpa [getDashboardData] using e2

/-! Trim and normalization stability lemmas for the reconciliation engine. -/

theorem dropWhile_cons_head_false {p : Char → Bool} :
    ∀ {l t : List Char} {a : Char}, l.dropWhile p = a :: t → p a = false := by
  intro l
  induction l with
  | nil => intro t a h; simp at h
  | cons c cs ih =>
    intro t a h
    by_cases hc : p c
    · rw [List.dropWhile_cons_of_pos hc] at h
      exact ih h
    · rw [List.dropWhile_cons_of_neg hc] at h
      obtain ⟨h1, _⟩ := List.cons.inj h
      subst h1
      simpa using hc

theorem dropWhile_idem {p : Char → Bool} (l : List Char) :
    (l.dropWhile p).dropWhile p = l.dropWhile p := by
  rcases h : l.dropWhile p with _ | ⟨a, t⟩
  · simp
  · rw [List.dropWhile_cons_of_neg (by simp [dropWhile_cons_head_false h])]

theorem trimRightChars_idem (l : List Char) :
    trimRightChars (trimRightChars l) = trimRightChars l := by
  induction l with
  | nil => rfl
  | cons c cs ih =>
    by_cases hr : trimRightChars cs = [] <;> by_cases hw : c.isWhitespace = true
    · simp [trimRightChars, hr, hw]
    · simp [trimRightChars, hr, hw, ih]
    · simp [trimRightChars, hr, hw, ih]
    · simp [trimRightChars, hr, hw, ih]

theorem trimLeft_trimRight_stable (l : List Char)
    (h : l.dropWhile Char.isWhitespace = l) :
    (trimRightChars l).dropWhile Char.isWhitespace = trimRightChars l := by
  cases l with
  | nil => rfl
  | cons c cs =>
    have hc : c.isWhitespace = false := by
      by_cases hw : c.isWhitespace = true
      · rw [List.dropWhile_cons_of_pos hw] at h
        have hlen := congrArg List.length h
        have hle : (cs.dropWhile Char.isWhitespace).length ≤ cs.length :=
          List.Sublist.length_le (List.dropWhile_sublist Char.isWhitespace)
        simp at hlen
        omega
      · simpa using hw
    rw [trimRightChars]
    simp only [hc, Bool.and_false, if_neg Bool.false_ne_true]
    exact List.dropWhile_cons_of_neg (by simp [hc])

theorem jsTrim_idem (s : String) : jsTrim (jsTrim s) = jsTrim s := by
  show String.mk (trimRightChars (trimLeftChars (trimRightChars (trimLeftChars s.data)))) =
    String.mk (trimRightChars (trimLeftChars s.data))
  have h1 : trimLeftChars (trimLeftChars s.data) = trimLeftChars s.data :=
    dropWhile_idem s.data
  have h2 : trimLeftChars (trimRightChars (trimLeftChars s.data)) =
      trimRightChars (trimLeftChars s.data) :=
    trimLeft_trimRight_stable (trimLeftChars s.data) h1
  rw [h2, trimRightChars_idem]

theorem normalize_cases (t : String) :
    normalizeTicketType t = t ∨
    normalizeTicketType t ∈
      (["PriorityPass", "StandardPass", "GuestPass", "FreeGuest", "VIP Pass"] :
        List String) := by
  unfold normalizeTicketType
  by_cases h1 : t = "15400" ∨ t = "15,400"
  · simp [h1]
  · rw [if_neg h1]
    by_cases h2 : t = "13200" ∨ t = "13,200"
    · simp [h2]
    · rw [if_neg h2]
      by_cases h3 : t = "1100" ∨ t = "1,100" ∨ t = "Guest"
      · simp [h3]
      · rw [if_neg h3]
        by_cases h4 : t = "Invitation" ∨ t = "無料招待者"
        · simp [h4]
        · rw [if_neg h4]
          by_cases h5 : t = "役員招待枠"
          · simp [h5]
          · rw [if_neg h5]
            exact Or.inl rfl

theorem jsTrim_normalize (t : String) (h : jsTrim t = t) :
    jsTrim (normalizeTicketType t) = normalizeTicketType t := by
  rcases normalize_cases t with h1 | h1
  · rw [h1, h]
  · simp only [List.mem_cons, List.not_mem_nil, or_false] at h1
    rcases h1 with h1 | h1 | h1 | h1 | h1 <;> rw [h1] <;> decide

theorem normalize_ne_empty (t : String) (h : t ≠ "") : normalizeTicketType t ≠ "" := by
  rcases normalize_cases t with h1 | h1
  · rw [h1]; exact h
  · simp only [List.mem_cons, List.not_mem_nil, or_false] at h1
    rcases h1 with h1 | h1 | h1 | h1 | h1 <;> rw [h1] <;> decide

theorem ecDisplayType_trim_fixed (t : String) : jsTrim (ecDisplayType t) = ecDisplayType t :=
  jsTrim_idem (if t = "" then "StandardPass" else t)

theorem lineType_trim_fixed (line : ECLine) : jsTrim (lineType line) = lineType line :=
  jsTrim_normalize (ecDisplayType line.ticketType) (ecDisplayType_trim_fixed line.ticketType)

theorem lineType_ne_empty (line : ECLine)
    (h : line.ticketType = "" ∨ jsTrim line.ticketType ≠ "") : lineType line ≠ "" := by
  apply normalize_ne_empty
  rcases h with h | h
  · rw [ecDisplayType, if_pos h]
    decide
  · rw [ecDisplayType, if_neg (fun he => h (by rw [he]; decide))]
    exact h

/-! Structural lemmas about the insertion-ordered association maps. -/

/-- The key list of an association map. -/
def mapKeys {V : Type} (m : List (String × V)) : List String := m.map Prod.fst

theorem mem_mapSet {V : Type} (m : List (String × V)) (k : String) (v : V) :
    ∀ e, e ∈ mapSet m k v → e = (k, v) ∨ e ∈ m := by
  induction m with
  | nil => intro e he; simpa [mapSet] using he
  | cons p rest ih =>
    obtain ⟨k2, v2⟩ := p
    intro e he
    by_cases h : k2 = k
    · rw [mapSet, if_pos h] at he
      rcases List.mem_cons.mp he with he | he
      · exact Or.inl (by simpa using he)
      · exact Or.inr (by simp [he])
    · rw [mapSet, if_neg h] at he
      rcases List.mem_cons.mp he with he | he
      · exact Or.inr (by simp [he])
      · rcases ih e he with h2 | h2
        · exact Or.inl h2
        · exact Or.inr (by simp [h2])

theorem mapKeys_mapSet_mem {V : Type} (m : List (String × V)) (k : String) (v : V) :
    ∀ x, x ∈ mapKeys (mapSet m k v) → x = k ∨ x ∈ mapKeys m := by
  intro x hx
  obtain ⟨e, he, hex⟩ := List.mem_map.mp hx
  rcases mem_mapSet m k v e he with h | h
  · subst h; exact Or.inl hex.symm
  · exact Or.inr (by rw [← hex]; exact List.mem_map_of_mem Prod.fst h)

theorem nodup_mapKeys_mapSet {V : Type} (m : List (String × V)) (k : String) (v : V)
    (h : (mapKeys m).Nodup) : (mapKeys (mapSet m k v)).Nodup := by
  induction m with
  | nil => simp [mapSet, mapKeys]
  | cons p rest ih =>
    obtain ⟨k2, v2⟩ := p
    rw [mapKeys, List.map_cons, List.nodup_cons] at h
    obtain ⟨hk2, hrest⟩ := h
    by_cases hkk : k2 = k
    · subst hkk
      rw [mapSet, if_pos rfl, mapKeys, List.map_cons, List.nodup_cons]
      exact ⟨hk2, hrest⟩
    · rw [mapSet, if_neg hkk, mapKeys, List.map_cons, List.nodup_cons]
      refine ⟨?_, ih hrest⟩
      intro hmem
      rcases mapKeys_mapSet_mem rest k v k2 hmem with h | h
      · exact hkk h
      · exact hk2 h

theorem mapGet_of_mem {V : Type} (m : List (String × V)) (k : String) (v : V)
    (hnd : (mapKeys m).Nodup) (hm : (k, v) ∈ m) : mapGet m k = some v := by
  induction m with
  | nil => simp at hm
  | cons p rest ih =>
    obtain ⟨k2, v2⟩ := p
    rw [mapKeys, List.map_cons, List.nodup_cons] at hnd
    obtain ⟨hk2, hrest⟩ := hnd
    rcases List.mem_cons.mp hm with hm | hm
    · obtain ⟨h1, h2⟩ := Prod.mk.inj hm
      rw [mapGet, if_pos h1.symm, h2]
    · have hk2' : k2 ∉ List.map Prod.fst rest := hk2
      have hne : k2 ≠ k := by
        intro he
        subst he
        exact hk2' (List.mem_map_of_mem Prod.fst hm)
      rw [mapGet, if_neg hne]
      exact ih hrest hm

theorem filter_key_eq {V : Type} (m : List (String × V)) (k : String) (v : V)
    (hnd : (mapKeys m).Nodup) (hm : (k, v) ∈ m) :
    m.filter (fun e => e.1 == k) = [(k, v)] := by
  induction m with
  | nil => simp at hm
  | cons p rest ih =>
    obtain ⟨k2, v2⟩ := p
    rw [mapKeys, List.map_cons, List.nodup_cons] at hnd
    obtain ⟨hk2, hrest⟩ := hnd
    rcases List.mem_cons.mp hm with hm | hm
    · obtain ⟨h1, h2⟩ := Prod.mk.inj hm
      subst h1; subst h2
      rw [List.filter_cons_of_pos (by simp)]
      congr 1
      rw [List.filter_eq_nil_iff]
      have hk2' : k ∉ List.map Prod.fst rest := hk2
      intro e he
      simp only [beq_iff_eq]
      intro hek
      exact hk2' (by rw [← hek]; exact List.mem_map_of_mem Prod.fst he)
    · have hk2' : k2 ∉ List.map Prod.fst rest := hk2
      have hne : k2 ≠ k := by
        intro he
        subst he
        exact hk2' (List.mem_map_of_mem Prod.fst hm)
      rw [List.filter_cons_of_neg (by simp [hne])]
      exact ih hrest hm

theorem countP_replicate {α : Type} (p : α → Bool) (n : Nat) (a : α) :
    (List.replicate n a).countP p = if p a then n else 0 := by
  induction n with
  | zero => simp
  | succ n ih =>
    rw [List.replicate_succ, List.countP_cons, ih]
    by_cases h : p a <;> simp [h]

/-! Invariants of the ECData aggregation fold (steps 1 to 3 of syncECData). -/

/-- An ECData line that contributes to the required count of key k. -/
def lineCounted (k : String) (line : ECLine) : Bool :=
  lineId line != "" && lineKey line == k

/-- An Attendees row that is counted under key k in step 3. -/
def rowCountedBy (k : String) (r : Row) : Bool :=
  jsTrim r.id != "" && rowKey r == k

/-- Structural facts holding of every descriptive record stored under a key. -/
def goodInfo (k : String) (info : TInfo) : Prop :=
  info.id ++ "_" ++ info.ticketType = k ∧
  jsTrim info.id = info.id ∧ info.id ≠ "" ∧
  jsTrim info.ticketType = info.ticketType ∧
  info.startTime = startTimeFor info.ticketType

theorem reqFold_keys_nodup (ec : List ECLine) :
    ∀ acc : List (String × Int) × List (String × TInfo),
      (mapKeys acc.1).Nodup → (mapKeys acc.2).Nodup →
      (mapKeys (ec.foldl reqStep acc).1).Nodup ∧ (mapKeys (ec.foldl reqStep acc).2).Nodup := by
  induction ec with
  | nil => intro acc h1 h2; exact ⟨h1, h2⟩
  | cons line rest ih =>
    intro acc h1 h2
    rw [List.foldl_cons]
    by_cases hid : lineId line = ""
    · rw [reqStep, if_pos hid]
      exact ih acc h1 h2
    · rw [reqStep, if_neg hid]
      apply ih
      · exact nodup_mapKeys_mapSet acc.1 (lineKey line) _ h1
      · by_cases hio : (mapGet acc.2 (lineKey line)).isNone
        · simp only [hio, if_pos]
          exact nodup_mapKeys_mapSet acc.2 (lineKey line) _ h2
        · simp only [hio, if_neg]
          exact h2

theorem reqFold_value (ec : List ECLine) :
    ∀ (acc : List (String × Int) × List (String × TInfo)) (k : String),
      (mapGet (ec.foldl reqStep acc).1 k).getD 0 =
        (mapGet acc.1 k).getD 0 +
          ((ec.filter (lineCounted k)).map (fun l => qtyOf l.quantity)).sum := by
  induction ec with
  | nil => intro acc k; simp
  | cons line rest ih =>
    intro acc k
    rw [List.foldl_cons, ih (reqStep acc line) k]
    by_cases hid : lineId line = ""
    · have hlc : lineCounted k line = false := by simp [lineCounted, hid]
      rw [reqStep, if_pos hid, List.filter_cons_of_neg (by simp [hlc])]
    · by_cases hk : lineKey line = k
      · have hlc : lineCounted k line = true := by simp [lineCounted, hid, hk]
        rw [reqStep, if_neg hid, List.filter_cons_of_pos (by simp [hlc])]
        simp only [List.map_cons, List.sum_cons]
        have : mapGet (mapSet acc.1 (lineKey line)
            ((mapGet acc.1 (lineKey line)).getD 0 + qtyOf line.quantity)) k =
            some ((mapGet acc.1 (lineKey line)).getD 0 + qtyOf line.quantity) := by
          rw [mapGet_mapSet, if_pos hk]
        rw [this, hk]
        simp only [Option.getD_some]
        omega
      · have hlc : lineCounted k line = false := by simp [lineCounted, hk]
        rw [reqStep, if_neg hid, List.filter_cons_of_neg (by simp [hlc])]
        have : mapGet (mapSet acc.1 (lineKey line)
            ((mapGet acc.1 (lineKey line)).getD 0 + qtyOf line.quantity)) k =
            mapGet acc.1 k := by
          rw [mapGet_mapSet, if_neg hk]
        rw [this]

theorem reqFold_info (ec : List ECLine) :
    ∀ acc : List (String × Int) × List (String × TInfo),
      (∀ k info, mapGet acc.2 k = some info → goodInfo k info) →
      ∀ k info, mapGet (ec.foldl reqStep acc).2 k = some info → goodInfo k info := by
  induction ec with
  | nil => intro acc h; exact h
  | cons line rest ih =>
    intro acc h
    rw [List.foldl_cons]
    apply ih
    intro k info hk
    by_cases hid : lineId line = ""
    · rw [reqStep, if_pos hid] at hk
      exact h k info hk
    · rw [reqStep, if_neg hid] at hk
      by_cases hio : (mapGet acc.2 (lineKey line)).isNone
      · simp only [hio, if_pos] at hk
        rw [mapGet_mapSet] at hk
        by_cases hkk : lineKey line = k
        · rw [if_pos hkk] at hk
          obtain rfl : lineInfo line = info := Option.some.inj hk
          subst hkk
          refine ⟨rfl, jsTrim_idem line.id, hid, lineType_trim_fixed line, rfl⟩
        · rw [if_neg hkk] at hk
          exact h k info hk
      · simp only [hio, if_neg] at hk
        exact h k info hk

theorem reqFold_info_typed (ec : List ECLine)
    (hec : ∀ line ∈ ec, line.ticketType = "" ∨ jsTrim line.ticketType ≠ "") :
    ∀ acc : List (String × Int) × List (String × TInfo),
      (∀ k info, mapGet acc.2 k = some info → info.ticketType ≠ "") →
      ∀ k info, mapGet (ec.foldl reqStep acc).2 k = some info → info.ticketType ≠ "" := by
  induction ec with
  | nil => intro acc h; exact h
  | cons line rest ih =>
    intro acc h
    rw [List.foldl_cons]
    apply ih (fun l hl => hec l (List.mem_cons_of_mem line hl))
    intro k info hk
    by_cases hid : lineId line = ""
    · rw [reqStep, if_pos hid] at hk
      exact h k info hk
    · rw [reqStep, if_neg hid] at hk
      by_cases hio : (mapGet acc.2 (lineKey line)).isNone
      · simp only [hio, if_pos] at hk
        rw [mapGet_mapSet] at hk
        by_cases hkk : lineKey line = k
        · rw [if_pos hkk] at hk
          obtain rfl : lineInfo line = info := Option.some.inj hk
          exact lineType_ne_empty line (hec line (List.mem_cons_self line rest))
        · rw [if_neg hkk] at hk
          exact h k info hk
      · simp only [hio, if_neg] at hk
        exact h k info hk

theorem reqFold_info_src (ec : List ECLine) :
    ∀ acc : List (String × Int) × List (String × TInfo),
      ∀ k info, mapGet (ec.foldl reqStep acc).2 k = some info →
        mapGet acc.2 k = some info ∨ ∃ line ∈ ec, info = lineInfo line := by
  induction ec with
  | nil => intro acc k info h; exact Or.inl h
  | cons line rest ih =>
    intro acc k info hk
    rw [List.foldl_cons] at hk
    rcases ih (reqStep acc line) k info hk with h | h
    · by_cases hid : lineId line = ""
      · rw [reqStep, if_pos hid] at h
        exact Or.inl h
      · rw [reqStep, if_neg hid] at h
        by_cases hio : (mapGet acc.2 (lineKey line)).isNone
        · simp only [hio, if_pos] at h
          rw [mapGet_mapSet] at h
          by_cases hkk : lineKey line = k
          · rw [if_pos hkk] at h
            exact Or.inr ⟨line, List.mem_cons_self line rest, (Option.some.inj h).symm⟩
          · rw [if_neg hkk] at h
            exact Or.inl h
        · simp only [hio, if_neg] at h
          exact Or.inl h
    · obtain ⟨l, hl, he⟩ := h
      exact Or.inr ⟨l, List.mem_cons_of_mem line hl, he⟩

theorem reqFold_cover (ec : List ECLine) :
    ∀ acc : List (String × Int) × List (String × TInfo),
      (∀ e ∈ acc.1, (mapGet acc.2 e.1).isSome) →
      ∀ e ∈ (ec.foldl reqStep acc).1, (mapGet (ec.foldl reqStep acc).2 e.1).isSome := by
  induction ec with
  | nil => intro acc h; exact h
  | cons line rest ih =>
    intro acc h
    rw [List.foldl_cons]
    apply ih
    intro e he
    by_cases hid : lineId line = ""
    · rw [reqStep, if_pos hid] at *
      exact h e he
    · rw [reqStep, if_neg hid] at *
      have hget : ∀ x : String, (mapGet acc.2 x).isSome →
          (mapGet (if (mapGet acc.2 (lineKey line)).isNone
            then mapSet acc.2 (lineKey line) (lineInfo line) else acc.2) x).isSome := by
        intro x hx
        by_cases hio : (mapGet acc.2 (lineKey line)).isNone
        · simp only [hio, if_pos]
          rw [mapGet_mapSet]
          by_cases hkk : lineKey line = x
          · rw [if_pos hkk]; rfl
          · rw [if_neg hkk]; exact hx
        · simp only [hio, if_neg]
          exact hx
      rcases mem_mapSet acc.1 (lineKey line) _ e he with he2 | he2
      · subst he2
        by_cases hio : (mapGet acc.2 (lineKey line)).isNone
        · simp only [hio, if_pos]
          rw [mapGet_mapSet, if_pos rfl]
          rfl
        · rcases hopt : mapGet acc.2 (lineKey line) with _ | v
          · rw [hopt] at hio
            simp at hio
          · simp only [if_neg hio]
            rw [hopt]
            rfl
      · exact hget e.1 (h e he2)

theorem existingCounts_value (att : List Row) (k : String) :
    (mapGet (existingCounts att) k).getD 0 = (att.countP (rowCountedBy k) : Int) := by
  suffices h : ∀ acc : List (String × Int),
      (mapGet (att.foldl (fun m r =>
        if jsTrim r.id ≠ "" then mapSet m (rowKey r) ((mapGet m (rowKey r)).getD 0 + 1)
        else m) acc) k).getD 0 =
      (mapGet acc k).getD 0 + (att.countP (rowCountedBy k) : Int) by
    have h2 := h []
    rw [existingCounts, h2]
    simp [mapGet]
  induction att with
  | nil => intro acc; simp
  | cons r rest ih =>
    intro acc
    rw [List.foldl_cons, ih, List.countP_cons]
    by_cases hid : jsTrim r.id = ""
    · have hrc : rowCountedBy k r = false := by simp [rowCountedBy, hid]
      have hstep : (if jsTrim r.id ≠ "" then
          mapSet acc (rowKey r) ((mapGet acc (rowKey r)).getD 0 + 1) else acc) = acc := by
        rw [if_neg (by simpa using hid)]
      rw [hrc, hstep]
      push_cast
      omega
    · have hstep : (if jsTrim r.id ≠ "" then
          mapSet acc (rowKey r) ((mapGet acc (rowKey r)).getD 0 + 1) else acc) =
          mapSet acc (rowKey r) ((mapGet acc (rowKey r)).getD 0 + 1) := by
        rw [if_pos hid]
      rw [hstep]
      by_cases hk : rowKey r = k
      · have hrc : rowCountedBy k r = true := by simp [rowCountedBy, hid, hk]
        rw [hrc, mapGet_mapSet, if_pos hk, hk]
        simp only [Option.getD_some]
        push_cast
        omega
      · have hrc : rowCountedBy k r = false := by simp [rowCountedBy, hk]
        rw [hrc, mapGet_mapSet, if_neg hk]
        push_cast
        omega

/-! Lemmas about the row generation step of syncECData. -/

theorem generateRows_mem (infoM : List (String × TInfo)) (existing : List (String × Int))
    (emailM : List (String × String)) :
    ∀ (req : List (String × Int)) (r : Row),
      r ∈ (generateRows infoM existing emailM req).1 →
      ∃ k info, mapGet infoM k = some info ∧
        r = mkSyncRow info ((mapGet emailM info.id).getD "") := by
  intro req
  induction req with
  | nil => intro r hr; simp [generateRows] at hr
  | cons e rest ih =>
    obtain ⟨key, needed⟩ := e
    intro r hr
    rcases hio : mapGet infoM key with _ | info
    · simp only [generateRows, hio] at hr
      exact ih r hr
    · simp only [generateRows, hio] at hr
      by_cases hpos : 0 < needed - (mapGet existing key).getD 0
      · rw [if_pos hpos] at hr
        rcases List.mem_append.mp hr with hr | hr
        · have := List.eq_of_mem_replicate hr
          exact ⟨key, info, hio, this⟩
        · exact ih r hr
      · rw [if_neg hpos] at hr
        exact ih r hr

theorem generateRows_countP (infoM : List (String × TInfo)) (existing : List (String × Int))
    (emailM : List (String × String)) (p : Row → Bool) (k : String)
    (hp : ∀ k2 info, mapGet infoM k2 = some info →
      (p (mkSyncRow info ((mapGet emailM info.id).getD "")) = true ↔ k2 = k)) :
    ∀ req : List (String × Int),
      (∀ e ∈ req, (mapGet infoM e.1).isSome) →
      (generateRows infoM existing emailM req).1.countP p =
        ((req.filter (fun e => e.1 == k)).map
          (fun e => (e.2 - (mapGet existing k).getD 0).toNat)).sum := by
  intro req
  induction req with
  | nil => intro _; simp [generateRows]
  | cons e rest ih =>
    obtain ⟨key, needed⟩ := e
    intro hcov
    have hrest := ih (fun x hx => hcov x (List.mem_cons_of_mem _ hx))
    rcases hio : mapGet infoM key with _ | info
    · have := hcov (key, needed) (List.mem_cons_self _ _)
      rw [hio] at this
      simp at this
    · have hiff := hp key info hio
      by_cases hk : key = k
      · subst hk
        have hptrue : p (mkSyncRow info ((mapGet emailM info.id).getD "")) = true :=
          hiff.mpr rfl
        rw [List.filter_cons_of_pos (by simp)]
        simp only [List.map_cons, List.sum_cons]
        by_cases hpos : 0 < needed - (mapGet existing key).getD 0
        · simp only [generateRows, hio, if_pos hpos]
          simp only [List.countP_append, countP_replicate, hptrue, if_pos]
          rw [hrest]
        · simp only [generateRows, hio, if_neg hpos]
          rw [hrest]
          have : (needed - (mapGet existing key).getD 0).toNat = 0 := by omega
          omega
      · have hpfalse : p (mkSyncRow info ((mapGet emailM info.id).getD "")) = false := by
          rcases hb : p (mkSyncRow info ((mapGet emailM info.id).getD "")) with _ | _
          · rfl
          · exact absurd (hiff.mp hb) hk
        rw [List.filter_cons_of_neg (by simp [hk])]
        by_cases hpos : 0 < needed - (mapGet existing key).getD 0
        · simp only [generateRows, hio, if_pos hpos]
          simp only [List.countP_append, countP_replicate, hpfalse]
          rw [hrest]
          simp
        · simp only [generateRows, hio, if_neg hpos]
          exact hrest

theorem generateRows_nil_of_satisfied (infoM : List (String × TInfo))
    (existing : List (String × Int)) (emailM : List (String × String)) :
    ∀ req : List (String × Int),
      (∀ e ∈ req, e.2 ≤ (mapGet existing e.1).getD 0) →
      (generateRows infoM existing emailM req).1 = [] := by
  intro req
  induction req with
  | nil => intro _; rfl
  | cons e rest ih =>
    obtain ⟨key, needed⟩ := e
    intro h
    have h1 : needed ≤ (mapGet existing key).getD 0 := h (key, needed) (List.mem_cons_self _ _)
    have hrest := ih (fun x hx => h x (List.mem_cons_of_mem _ hx))
    rcases hio : mapGet infoM key with _ | info
    · simp only [generateRows, hio]
      exact hrest
    · simp only [generateRows, hio, if_neg (show ¬ 0 < needed - (mapGet existing key).getD 0 by omega)]
      exact hrest

/-! Packaging lemmas for the maps built by requiredAndInfo. -/

theorem mem_of_mapGet {V : Type} (m : List (String × V)) (k : String) (v : V)
    (h : mapGet m k = some v) : (k, v) ∈ m := by
  induction m with
  | nil => simp [mapGet] at h
  | cons p rest ih =>
    obtain ⟨k2, v2⟩ := p
    by_cases hk : k2 = k
    · rw [mapGet, if_pos hk] at h
      obtain rfl : v2 = v := Option.some.inj h
      subst hk
      exact List.mem_cons_self _ _
    · rw [mapGet, if_neg hk] at h
      exact List.mem_cons_of_mem _ (ih h)

theorem requiredAndInfo_keys_nodup (ec : List ECLine) :
    (mapKeys (requiredAndInfo ec).1).Nodup ∧ (mapKeys (requiredAndInfo ec).2).Nodup :=
  reqFold_keys_nodup ec ([], []) (by simp [mapKeys]) (by simp [mapKeys])

theorem requiredAndInfo_good (ec : List ECLine) :
    ∀ k info, mapGet (requiredAndInfo ec).2 k = some info → goodInfo k info :=
  reqFold_info ec ([], []) (fun k info h => by simp [mapGet] at h)

theorem requiredAndInfo_typed (ec : List ECLine)
    (hec : ∀ line ∈ ec, line.ticketType = "" ∨ jsTrim line.ticketType ≠ "") :
    ∀ k info, mapGet (requiredAndInfo ec).2 k = some info → info.ticketType ≠ "" :=
  reqFold_info_typed ec hec ([], []) (fun k info h => by simp [mapGet] at h)

theorem requiredAndInfo_cover (ec : List ECLine) :
    ∀ e ∈ (requiredAndInfo ec).1, (mapGet (requiredAndInfo ec).2 e.1).isSome :=
  reqFold_cover ec ([], []) (fun e he => by simp at he)

theorem requiredAndInfo_value (ec : List ECLine) (k : String) :
    (mapGet (requiredAndInfo ec).1 k).getD 0 =
      ((ec.filter (lineCounted k)).map (fun l => qtyOf l.quantity)).sum := by
  have h := reqFold_value ec ([], []) k
  rw [requiredAndInfo]
  rw [h]
  simp [mapGet]

theorem requiredAndInfo_src (ec : List ECLine) :
    ∀ k info, mapGet (requiredAndInfo ec).2 k = some info →
      ∃ line ∈ ec, info = lineInfo line := by
  intro k info h
  rcases reqFold_info_src ec ([], []) k info h with h2 | h2
  · simp [mapGet] at h2
  · exact h2

theorem rowKey_mkSyncRow (k : String) (info : TInfo) (email : String)
    (hg : goodInfo k info) (ht : info.ticketType ≠ "") :
    rowKey (mkSyncRow info email) = k := by
  obtain ⟨hcat, hid, _, htt, _⟩ := hg
  show jsTrim info.id ++ "_" ++ ecDisplayType info.ticketType = k
  rw [hid, ecDisplayType, if_neg ht, htt, hcat]

/-- The store rows produced by syncECData, spelled via generateRows. -/
theorem syncECData_rows (ec : List ECLine) (master : List MemberEntry) (att : List Row) :
    (syncECData ec master att).1 =
      (generateRows (requiredAndInfo ec).2 (existingCounts att) (emailMapOf master)
        (requiredAndInfo ec).1).1 := rfl

/-- Claim C2 counterexample: a single order line whose ticket-type cell is a
lone space defeats idempotence: the first run stores the empty normalized
type, the existing-row count of the second run reads that cell back as
StandardPass, so the second run appends a row again. -/
theorem c2_counterexample :
    (syncECData [{ id := "1", name := "A", ticketType := " ", quantity := none }] []
        []).1.length = 1 ∧
    (syncECData [{ id := "1", name := "A", ticketType := " ", quantity := none }] []
        (syncStore [{ id := "1", name := "A", ticketType := " ", quantity := none }] []
          [])).1.length = 1 := by
  constructor
  · decide
  · decide

/-- Claim C2 (amended): reconciliation is idempotent whenever no order line
has a whitespace-only ticket-type cell (each cell is either exactly empty or
trims to a nonempty label): running syncECData a second time on the store
produced by the first run, with identical inputs, appends zero rows. -/
theorem c2_sync_idempotent (ec : List ECLine) (master : List MemberEntry) (att : List Row)
    (hec : ∀ line ∈ ec, line.ticketType = "" ∨ jsTrim line.ticketType ≠ "") :
    (syncECData ec master (syncStore ec master att)).1 = [] := by
  have hnd := (requiredAndInfo_keys_nodup ec).1
  have hgood := requiredAndInfo_good ec
  have htyped := requiredAndInfo_typed ec hec
  have hcov := requiredAndInfo_cover ec
  rw [syncECData_rows]
  apply generateRows_nil_of_satisfied
  intro e he
  obtain ⟨key, needed⟩ := e
  have hget : mapGet (requiredAndInfo ec).1 key = some needed := mapGet_of_mem _ _ _ hnd he
  have hsome := hcov (key, needed) he
  rcases hio : mapGet (requiredAndInfo ec).2 key with _ | info
  · rw [hio] at hsome
    simp at hsome
  · have hp : ∀ k2 info2, mapGet (requiredAndInfo ec).2 k2 = some info2 →
        (rowCountedBy key (mkSyncRow info2
          ((mapGet (emailMapOf master) info2.id).getD "")) = true ↔ k2 = key) := by
      intro k2 info2 h2
      have hkey2 := rowKey_mkSyncRow k2 info2
        ((mapGet (emailMapOf master) info2.id).getD "")
        (hgood k2 info2 h2) (htyped k2 info2 h2)
      have hid2 : jsTrim (mkSyncRow info2
          ((mapGet (emailMapOf master) info2.id).getD "")).id = info2.id :=
        (hgood k2 info2 h2).2.1
      have hne2 : info2.id ≠ "" := (hgood k2 info2 h2).2.2.1
      rw [rowCountedBy]
      constructor
      · intro hb
        simp only [Bool.and_eq_true, bne_iff_ne, beq_iff_eq] at hb
        rw [← hkey2]
        exact hb.2
      · intro hkk
        subst hkk
        simp only [Bool.and_eq_true, bne_iff_ne, beq_iff_eq]
        exact ⟨by rw [hid2]; exact hne2, hkey2⟩
    have hcount := generateRows_countP (requiredAndInfo ec).2 (existingCounts att)
      (emailMapOf master) (rowCountedBy key) key hp (requiredAndInfo ec).1 hcov
    have hfil := filter_key_eq (requiredAndInfo ec).1 key needed hnd he
    rw [hfil] at hcount
    simp only [List.map_cons, List.map_nil, List.sum_cons, List.sum_nil,
      Nat.add_zero] at hcount
    show needed ≤ (mapGet (existingCounts (syncStore ec master att)) key).getD 0
    rw [existingCounts_value, syncStore, List.countP_append]
    have hE1 := existingCounts_value att key
    rw [syncECData_rows, hcount]
    push_cast
    omega

/-- Order lines for the C2 witness: duplicate keys and a legacy price code. -/
def c2WitnessLines : List ECLine :=
  [{ id := "7", name := "Bob", ticketType := "15400", quantity := some 2 },
   { id := "7", name := "Bob", ticketType := "15400", quantity := some 1 },
   { id := "8", name := "Cho", ticketType := "Guest", quantity := none }]

theorem c2_sync_idempotent_witness :
    (∀ line ∈ c2WitnessLines, line.ticketType = "" ∨ jsTrim line.ticketType ≠ "") ∧
    (syncECData c2WitnessLines [] []).1.length = 4 ∧
    (syncECData c2WitnessLines [] (syncStore c2WitnessLines [] [])).1 = [] := by
  refine ⟨by decide, by decide, ?_⟩
  exact c2_sync_idempotent c2WitnessLines [] [] (by decide)

/-- Quantity as claim C3 reads it: only a missing or unparseable cell
defaults to 1, a parsed number counts as itself. -/
def claimQtyOf : Option Int → Int
  | none => 1
  | some n => n

/-- An order line whose quantity cell parses to 0. -/
def c3CexLine : ECLine :=
  { id := "1", name := "A", ticketType := "StandardPass", quantity := some 0 }

/-- Claim C3 counterexample: an order line whose quantity cell parses to 0.
Under the claim the required count is 0 and no row should be appended, but
parseInt(cell) || 1 treats the parsed 0 as falsy, so the code counts the
line as quantity 1 and appends one row to an empty store. -/
theorem c3_counterexample :
    claimQtyOf (some 0) = 0 ∧
    qtyOf (some 0) = 1 ∧
    (syncECData [c3CexLine] [] []).1.length = 1 := by
  refine ⟨rfl, rfl, ?_⟩
  decide

/-- Claim C3 (amended): for every composite key, the required count is the
sum of the line quantities mapping to that key with a missing, unparseable
or zero quantity counting as 1; syncECData appends exactly
max(required - existing, 0) rows carrying the id and canonical type of the key,
where existing is the step-3 count of current store rows under the key; and
every appended row has empty token, checkInTime, emailSent and
reEntryHistory. -/
theorem c3_sync_shortfall (ec : List ECLine) (master : List MemberEntry) (att : List Row)
    (k : String) (needed : Int) (info : TInfo)
    (hreq : mapGet (requiredAndInfo ec).1 k = some needed)
    (hinfo : mapGet (requiredAndInfo ec).2 k = some info) :
    needed = ((ec.filter (lineCounted k)).map (fun l => qtyOf l.quantity)).sum ∧
    (syncECData ec master att).1.countP
        (fun r => r.id == info.id && r.ticketType == info.ticketType) =
      (needed - (att.countP (rowCountedBy k) : Int)).toNat ∧
    ∀ r ∈ (syncECData ec master att).1,
      r.token = "" ∧ r.checkInTime = "" ∧ r.emailSent = "" ∧ r.reEntryHistory = "" := by
  have hnd := (requiredAndInfo_keys_nodup ec).1
  have hgood := requiredAndInfo_good ec
  have hcov := requiredAndInfo_cover ec
  refine ⟨?_, ?_, ?_⟩
  · have h := requiredAndInfo_value ec k
    rw [hreq] at h
    simpa using h
  · have hp : ∀ k2 info2, mapGet (requiredAndInfo ec).2 k2 = some info2 →
        (((mkSyncRow info2 ((mapGet (emailMapOf master) info2.id).getD "")).id == info.id &&
          (mkSyncRow info2 ((mapGet (emailMapOf master) info2.id).getD "")).ticketType ==
            info.ticketType) = true ↔ k2 = k) := by
      intro k2 info2 h2
      have hcat2 : info2.id ++ "_" ++ info2.ticketType = k2 := (hgood k2 info2 h2).1
      have hcat : info.id ++ "_" ++ info.ticketType = k := (hgood k info hinfo).1
      constructor
      · intro hb
        simp only [Bool.and_eq_true, beq_iff_eq] at hb
        obtain ⟨hbid, hbtt⟩ := hb
        have hbid2 : info2.id = info.id := hbid
        have hbtt2 : info2.ticketType = info.ticketType := hbtt
        rw [← hcat2, hbid2, hbtt2, hcat]
      · intro hkk
        subst hkk
        rw [hinfo] at h2
        obtain rfl : info = info2 := Option.some.inj h2
        simp only [Bool.and_eq_true, beq_iff_eq]
        exact ⟨rfl, rfl⟩
    have hcount := generateRows_countP (requiredAndInfo ec).2 (existingCounts att)
      (emailMapOf master)
      (fun r => r.id == info.id && r.ticketType == info.ticketType) k hp
      (requiredAndInfo ec).1 hcov
    have hfil := filter_key_eq (requiredAndInfo ec).1 k needed hnd
      (mem_of_mapGet _ _ _ hreq)
    rw [hfil] at hcount
    simp only [List.map_cons, List.map_nil, List.sum_cons, List.sum_nil,
      Nat.add_zero] at hcount
    rw [syncECData_rows, hcount, existingCounts_value]
  · intro r hr
    rw [syncECData_rows] at hr
    obtain ⟨k2, info2, _, he⟩ := generateRows_mem _ _ _ _ r hr
    subst he
    exact ⟨rfl, rfl, rfl, rfl⟩

/-- One pre-existing StandardPass row for member 5, for the C3 witness. -/
def c3WitnessStore : List Row :=
  [{ id := "5", name := "Carol", email := "", token := "", checkInTime := "",
     emailSent := "", ticketType := "StandardPass", startTime := "11:00-12:00",
     reEntryHistory := "", inviter := "", note := "" }]

/-- The order line for the C3 witness: quantity 3 of a legacy price code. -/
def c3WitnessLine : ECLine :=
  { id := "5", name := "Carol", ticketType := "13200", quantity := some 3 }

/-- The descriptive record stored for the C3 witness key. -/
def c3WitnessInfo : TInfo :=
  { id := "5", name := "Carol", ticketType := "StandardPass", startTime := "11:00-12:00" }

theorem c3_sync_shortfall_witness :
    mapGet (requiredAndInfo [c3WitnessLine]).1 "5_StandardPass" = some 3 ∧
    (c3WitnessStore.countP (rowCountedBy "5_StandardPass") : Int) = 1 ∧
    (syncECData [c3WitnessLine] [] c3WitnessStore).1.countP
      (fun r => r.id == c3WitnessInfo.id && r.ticketType == c3WitnessInfo.ticketType) = 2 := by
  have h := c3_sync_shortfall [c3WitnessLine] [] c3WitnessStore "5_StandardPass" 3
    c3WitnessInfo (by decide) (by decide)
  refine ⟨by decide, by decide, ?_⟩
  have h2 := h.2.1
  rw [h2]
  decide

/-- An order line carrying the raw legacy label VIP. -/
def c7CexLine : ECLine :=
  { id := "1", name := "Bob", ticketType := "VIP", quantity := none }

/-- Claim C7 counterexample: the raw legacy label VIP is not rewritten by the
sync normalization chain, so the created row carries the alias VIP itself,
not a canonical replacement. -/
theorem c7_counterexample :
    (syncECData [c7CexLine] [] []).1.map Row.ticketType = ["VIP"] := by
  decide

/-- Claim C7 (amended): every row created by syncECData carries the
normalized form of the trimmed raw label of some order line; the seven rewritten
aliases (15400, 13200, 1100, Guest, Invitation, 無料招待者, 役員招待枠) all map to
a canonical type different from the alias itself; VIP and General are not
rewritten and pass through unchanged. -/
theorem c7_canonical_rows (ec : List ECLine) (master : List MemberEntry) (att : List Row) :
    (∀ r ∈ (syncECData ec master att).1, ∃ line ∈ ec,
        r.ticketType = normalizeTicketType (ecDisplayType line.ticketType)) ∧
    (∀ a ∈ (["15400", "13200", "1100", "Guest", "Invitation", "無料招待者",
        "役員招待枠"] : List String),
      normalizeTicketType a ≠ a ∧
      normalizeTicketType a ∈
        (["PriorityPass", "StandardPass", "GuestPass", "FreeGuest", "VIP Pass"] :
          List String)) ∧
    normalizeTicketType "VIP" = "VIP" ∧ normalizeTicketType "General" = "General" := by
  refine ⟨?_, by decide, by decide, by decide⟩
  intro r hr
  rw [syncECData_rows] at hr
  obtain ⟨k2, info2, hget, he⟩ := generateRows_mem _ _ _ _ r hr
  obtain ⟨line, hline, hinfo⟩ := requiredAndInfo_src ec k2 info2 hget
  refine ⟨line, hline, ?_⟩
  subst he
  rw [hinfo]
  rfl

theorem c7_canonical_rows_witness :
    ("15400" : String) ∈ (["15400", "13200", "1100", "Guest", "Invitation",
      "無料招待者", "役員招待枠"] : List String) ∧
    normalizeTicketType "15400" ≠ "15400" ∧
    normalizeTicketType "15400" ∈
      (["PriorityPass", "StandardPass", "GuestPass", "FreeGuest", "VIP Pass"] :
        List String) := by
  have h := (c7_canonical_rows [] [] []).2.1 "15400" (by decide)
  exact ⟨by decide, h.1, h.2⟩

end Ticketless
